import Mathlib

set_option maxRecDepth 2000

/-!
Verification of the gmail_outlook_automation repository.

Part 1 models the per-email decision workflow (classifier, retriever,
telemetry resolver, synthesizer, quality gate, orchestrator).  The backend
implementing this workflow is not present under src/ (only the README and
the React frontend are), so these definitions are modelled from the spec,
as their doc comments state.

Part 2 embeds the frontend components that are present in src/:
TimeframeSelector, SimplifiedTimeframeSelector and EmailDashboard.fetchData.
-/

namespace Workflow

/-- Modelled from the spec: an inbound e-mail message (spec §3 InboundMessage);
the backend type is missing from src/. Immutable record. -/
structure InboundMessage where
  msgId : String
  sender : String
  subject : String
  body : String
  receivedAt : Nat
  accountRef : String
deriving DecidableEq, Repr

/-- Modelled from the spec: the closed category taxonomy (spec §3 Category);
the backend classifier code is missing from src/. -/
inductive Category
  | complaint
  | product_inquiry
  | feedback
  | fleet_related
  | unrelated
deriving DecidableEq, Repr

/-- Modelled from the spec: a retrieved knowledge-base passage
(spec §3 RetrievedPassage); relevance scores are modelled as rationals. -/
structure RetrievedPassage where
  docId : String
  text : String
  score : Rat
deriving DecidableEq, Repr

/-- Modelled from the spec: entity kinds recognised by the telemetry
resolver (spec §3 TelemetryFact entity type). -/
inductive EntityType
  | vehicle
  | driver
  | location
deriving DecidableEq, Repr

/-- Modelled from the spec: an entity extracted from message text
(spec §4.3 entity extraction). -/
structure Entity where
  etype : EntityType
  eid : String
deriving DecidableEq, Repr

/-- Modelled from the spec: a resolved telemetry fact (spec §3 TelemetryFact). -/
structure TelemetryFact where
  etype : EntityType
  eid : String
  attributes : List (String × String)
deriving DecidableEq, Repr

/-- Modelled from the spec: the grounding context handed to the synthesizer
(spec §4.4 context union); the telemetry variant also carries the entities
the resolver flagged as unresolved (spec §4.3). -/
inductive GroundingContext
  | empty
  | passages (ps : List RetrievedPassage)
  | telemetry (facts : List TelemetryFact) (unresolved : List Entity)
deriving DecidableEq, Repr

/-- Modelled from the spec: a candidate reply (spec §3 DraftCandidate):
body text, the category and grounding it was built from, a revision
counter and the gate feedback that triggered the previous revision. -/
structure DraftCandidate where
  body : String
  category : Category
  context : GroundingContext
  revision : Nat
  priorFeedback : List String
deriving DecidableEq, Repr

/-- Modelled from the spec: a quality-gate verdict (spec §3 QAVerdict). -/
structure QAVerdict where
  accept : Bool
  issues : List String
  score : Rat
deriving DecidableEq, Repr

/-- Modelled from the spec: terminal state tags (spec §3 WorkflowResult). -/
inductive ResultTag
  | drafted
  | suppressed
  | escalated
  | failed
deriving DecidableEq, Repr

/-- Modelled from the spec: the observability trace of a run (spec §3
WorkflowResult trace of category + revision count); the two call counters
record how often the Draft Synthesizer and the Quality Gate were invoked. -/
structure Trace where
  category : Option Category
  revisionCount : Nat
  synthCalls : Nat
  gateCalls : Nat
deriving DecidableEq, Repr

/-- Modelled from the spec: the terminal result of a run (spec §3
WorkflowResult), extended with the in-order list of QAVerdicts and the
scored attempts, both part of the observability trace. -/
structure WorkflowResult where
  tag : ResultTag
  finalDraft : Option DraftCandidate
  verdicts : List QAVerdict
  attempts : List (DraftCandidate × Rat)
  trace : Trace
deriving DecidableEq, Repr

/-- Modelled from the spec: the orchestrator configuration (spec §4.6 and §9:
retry limit, retriever top-k, minimum relevance threshold). -/
structure Config where
  maxRetries : Nat
  topK : Nat
  minScore : Rat
deriving DecidableEq, Repr

/-- Modelled from the spec: default configuration (maximum retry count 3). -/
def defaultConfig : Config := { maxRetries := 3, topK := 5, minScore := 0 }

/-- Modelled from the spec: the external collaborators of the core (spec §6):
the completion service, knowledge-base search, entity extraction and
fleet-data lookup, plus the completion-backed synthesis and QA scoring
calls.  All are deterministic oracles; fallible ones return Except. -/
structure Services where
  complete : String → Except String String
  search : String → List RetrievedPassage
  extract : InboundMessage → List Entity
  lookup : Entity → Option (List (String × String))
  synthesize : InboundMessage → Category → GroundingContext → List String → Except String String
  evaluate : DraftCandidate → Except String QAVerdict

/-- Modelled from the spec: the five taxonomy labels in their wire form. -/
def taxonomyLabels : List String :=
  ["complaint", "product_inquiry", "feedback", "fleet_related", "unrelated"]

/-- Modelled from the spec: parse a normalized label into a Category;
none when the label is outside the closed taxonomy. -/
def parseCategory (s : String) : Option Category :=
  if s = "complaint" then some Category.complaint
  else if s = "product_inquiry" then some Category.product_inquiry
  else if s = "feedback" then some Category.feedback
  else if s = "fleet_related" then some Category.fleet_related
  else if s = "unrelated" then some Category.unrelated
  else none

/-- Whitespace recognised by label normalization. -/
def isSpaceChar (c : Char) : Bool := c = ' ' || c = '\t' || c = '\n' || c = '\r'

/-- Modelled from the spec: label normalization applied to the completion
model's free-text answer before taxonomy matching (spec §4.1
"normalize/clamp"): trim surrounding whitespace and lowercase, written
over the character list. -/
def normalizeLabel (s : String) : String :=
  ⟨(((s.data.dropWhile isSpaceChar).reverse.dropWhile isSpaceChar).reverse).map Char.toLower⟩

/-- Modelled from the spec: the classification prompt over subject+body
(spec §4.1 "input is the subject+body text"). -/
def classifyPrompt (msg : InboundMessage) : String :=
  "Classify the following e-mail.\n" ++ msg.subject ++ "\n" ++ msg.body

/-- Modelled from the spec: `classify` (spec §4.1).  Calls the completion
service; normalizes the returned text and matches it against the closed
taxonomy; any text that does not resolve to a taxonomy member fails with a
ClassificationError instead of propagating an invalid label. -/
def classify (complete : String → Except String String) (msg : InboundMessage) :
    Except String Category :=
  match complete (classifyPrompt msg) with
  | Except.error e => Except.error ("ClassificationError: " ++ e)
  | Except.ok txt =>
    match parseCategory (normalizeLabel txt) with
    | some c => Except.ok c
    | none => Except.error "ClassificationError"

/-- Descending-relevance order on retrieved passages. -/
def scoreGE (a b : RetrievedPassage) : Prop := b.score ≤ a.score

instance : DecidableRel scoreGE := fun a b => inferInstanceAs (Decidable (b.score ≤ a.score))

instance : IsTotal RetrievedPassage scoreGE := ⟨fun a b => le_total b.score a.score⟩

instance : IsTrans RetrievedPassage scoreGE := ⟨fun _ _ _ h1 h2 => le_trans h2 h1⟩

/-- Modelled from the spec: `retrieve` (spec §4.2).  Queries the
knowledge-base search, drops passages below the configured minimum score,
orders the rest by descending relevance and keeps the top-k.  An empty
knowledge base yields the empty sequence. -/
def retrieve (search : String → List RetrievedPassage) (minScore : Rat)
    (query : String) (topK : Nat) : List RetrievedPassage :=
  (List.insertionSort scoreGE
    ((search query).filter (fun p => decide (minScore ≤ p.score)))).take topK

/-- Modelled from the spec: the per-entity lookup step of the telemetry
resolver (spec §4.3).  One external lookup per extracted entity; a failing
lookup flags that entity as unresolved and does not block the facts already
resolved for the other entities. -/
def resolveEntities (lookup : Entity → Option (List (String × String))) :
    List Entity → List TelemetryFact × List Entity
  | [] => ([], [])
  | e :: es =>
    let rest := resolveEntities lookup es
    match lookup e with
    | some attrs => (⟨e.etype, e.eid, attrs⟩ :: rest.1, rest.2)
    | none => (rest.1, e :: rest.2)

/-- Modelled from the spec: `resolve` (spec §4.3): entity extraction
followed by per-entity lookups. -/
def resolve (svc : Services) (msg : InboundMessage) :
    List TelemetryFact × List Entity :=
  resolveEntities svc.lookup (svc.extract msg)

/-- Modelled from the spec: the Grounding stage (spec §4.6): retriever for
complaint / product_inquiry / feedback, telemetry resolver for
fleet_related; grounding failures degrade to reduced context rather than
failing the workflow. -/
def ground (svc : Services) (cfg : Config) (msg : InboundMessage) :
    Category → GroundingContext
  | Category.fleet_related =>
    let r := resolve svc msg
    GroundingContext.telemetry r.1 r.2
  | Category.unrelated => GroundingContext.empty
  | _ =>
    GroundingContext.passages
      (retrieve svc.search cfg.minScore (msg.subject ++ " " ++ msg.body) cfg.topK)

/-- Modelled from the spec: the best-scoring attempt among the recorded
scored candidates (spec §4.6: on escalation "the best-scoring candidate
among attempts is retained"); prefers the earlier attempt on ties. -/
def bestOf : List (DraftCandidate × Rat) → Option (DraftCandidate × Rat)
  | [] => none
  | a :: l =>
    match bestOf l with
    | none => some a
    | some b => if b.2 ≤ a.2 then some a else some b

/-- Modelled from the spec: the Drafting → Gating → Revising loop of the
orchestrator (spec §4.6).  `fuel` is the number of revisions still allowed
(initially the configured maximum), `rev` the current revision counter;
`verdicts` and `attempts` accumulate the observability trace, `sc` and `gc`
count synthesizer and gate invocations.  Acceptance terminates as drafted;
a rejection with no fuel left terminates as escalated retaining the
best-scoring attempt; a synthesis or gate call failure terminates as
failed. -/
def draftLoop (svc : Services) (msg : InboundMessage) (cat : Category)
    (ctx : GroundingContext) :
    Nat → Nat → List String → List QAVerdict → List (DraftCandidate × Rat) →
    Nat → Nat → WorkflowResult
  | fuel, rev, feedback, verdicts, attempts, sc, gc =>
    match svc.synthesize msg cat ctx feedback with
    | Except.error _ =>
      { tag := ResultTag.failed, finalDraft := none, verdicts := verdicts,
        attempts := attempts, trace := ⟨some cat, rev, sc + 1, gc⟩ }
    | Except.ok body =>
      let draft : DraftCandidate :=
        { body := body, category := cat, context := ctx, revision := rev,
          priorFeedback := feedback }
      match svc.evaluate draft with
      | Except.error _ =>
        { tag := ResultTag.failed, finalDraft := none, verdicts := verdicts,
          attempts := attempts, trace := ⟨some cat, rev, sc + 1, gc + 1⟩ }
      | Except.ok v =>
        if v.accept then
          { tag := ResultTag.drafted, finalDraft := some draft,
            verdicts := verdicts ++ [v], attempts := attempts ++ [(draft, v.score)],
            trace := ⟨some cat, rev, sc + 1, gc + 1⟩ }
        else
          match fuel with
          | 0 =>
            { tag := ResultTag.escalated,
              finalDraft := (bestOf (attempts ++ [(draft, v.score)])).map Prod.fst,
              verdicts := verdicts ++ [v], attempts := attempts ++ [(draft, v.score)],
              trace := ⟨some cat, rev, sc + 1, gc + 1⟩ }
          | fuel' + 1 =>
            draftLoop svc msg cat ctx fuel' (rev + 1) v.issues (verdicts ++ [v])
              (attempts ++ [(draft, v.score)]) (sc + 1) (gc + 1)

/-- Modelled from the spec: `runWorkflow` (spec §4.6 / §6), the single entry
point of the core.  Classification failure terminates as failed with no
retry; an unrelated category terminates as suppressed; otherwise the run
grounds, drafts and gates with the bounded revision loop. -/
def runWorkflow (svc : Services) (cfg : Config) (msg : InboundMessage) :
    WorkflowResult :=
  match classify svc.complete msg with
  | Except.error _ =>
    { tag := ResultTag.failed, finalDraft := none, verdicts := [],
      attempts := [], trace := ⟨none, 0, 0, 0⟩ }
  | Except.ok cat =>
    if cat = Category.unrelated then
      { tag := ResultTag.suppressed, finalDraft := none, verdicts := [],
        attempts := [], trace := ⟨some cat, 0, 0, 0⟩ }
    else
      draftLoop svc msg cat (ground svc cfg msg cat) cfg.maxRetries 0 [] [] [] 0 0

/-- A deterministic stub completion service answering a fixed label. -/
def stubComplete (label : String) : String → Except String String :=
  fun _ => Except.ok label

/-- A deterministic stub service bundle: classification resolves to `label`,
search and extraction are empty, synthesis returns a fixed body, the gate
uniformly accepts or rejects according to `accept`. -/
def stubServices (label : String) (accept : Bool) : Services where
  complete := stubComplete label
  search := fun _ => []
  extract := fun _ => []
  lookup := fun _ => none
  synthesize := fun _ _ _ _ => Except.ok "Dear customer, thank you."
  evaluate := fun _ => Except.ok { accept := accept, issues := ["tone too informal"], score := 1 }

/-- A sample inbound message used by the concrete witnesses. -/
def sampleMsg : InboundMessage :=
  { msgId := "m1", sender := "customer@example.com", subject := "Hello",
    body := "Thanks for the newsletter", receivedAt := 0, accountRef := "acct1" }

end Workflow

namespace Frontend

/-- The time unit offered by the frontend selectors
(src TimeframeSelector / SimplifiedTimeframeSelector). -/
inductive TimeUnit
  | hours
  | days
deriving DecidableEq, Repr

/-- Whitespace characters skipped by JavaScript parseInt. -/
def jsWhitespace (c : Char) : Bool :=
  c = ' ' || c = '\t' || c = '\n' || c = '\r'

/-- Value of a list of decimal digit characters. -/
def digitsToNat (cs : List Char) : Nat :=
  cs.foldl (fun a c => a * 10 + (c.toNat - 48)) 0

/-- JavaScript parseInt with radix 10 on the inputs this component sees:
skip leading whitespace, an optional sign, then the longest prefix of
decimal digits; none models NaN (no digits). -/
def jsParseInt (s : String) : Option Int :=
  let cs := s.data.dropWhile jsWhitespace
  match cs with
  | '-' :: rest =>
    let ds := rest.takeWhile Char.isDigit
    if ds.isEmpty then none else some (-(digitsToNat ds : Int))
  | '+' :: rest =>
    let ds := rest.takeWhile Char.isDigit
    if ds.isEmpty then none else some ((digitsToNat ds : Int))
  | _ =>
    let ds := cs.takeWhile Char.isDigit
    if ds.isEmpty then none else some ((digitsToNat ds : Int))

/-- TimeframeSelector.calculateHours (src timeframe-selector lines 31-34):
`const numValue = parseInt(value) || 0; return unit === 'days' ? numValue * 24 : numValue`. -/
def calculateHours (value : String) (unit : TimeUnit) : Int :=
  let numValue : Int := (jsParseInt value).getD 0
  if unit = TimeUnit.days then numValue * 24 else numValue

/-- TimeframeSelector.handleSearch (lines 36-41): computes hours from the
stored value and unit and invokes onTimeframeChange with hours.toString()
only when hours > 0 and not loading.  The returned option is the argument
passed to the callback, none when the callback is not invoked. -/
def handleSearch (timeValue : String) (timeUnit : TimeUnit) (isLoading : Bool) :
    Option String :=
  let hours := calculateHours timeValue timeUnit
  if 0 < hours ∧ isLoading = false then some (toString hours) else none

/-- TimeframeSelector.handleUnitChange (lines 51-57): stores the new unit,
recomputes hours with it and invokes onTimeframeChange under the same
guard as handleSearch.  Returns the new unit state and the optional
callback argument. -/
def handleUnitChange (timeValue : String) (newUnit : TimeUnit) (isLoading : Bool) :
    TimeUnit × Option String :=
  let hours := calculateHours timeValue newUnit
  (newUnit, if 0 < hours ∧ isLoading = false then some (toString hours) else none)

/-- The JavaScript regular expression test `/^\d+$/.test(s)`: nonempty and
all decimal digits. -/
def matchesDigits (s : String) : Bool :=
  decide (s.length ≠ 0) && s.data.all Char.isDigit

/-- SimplifiedTimeframeSelector.handleTimeValueChange (src
simplified-timeframe lines 28-34): when the input is empty or matches
`/^\d+$/`, store it and invoke onTimeframeChange with it; otherwise leave
the state unchanged and do not invoke the callback.  Returns the new
timeValue state and the optional callback argument. -/
def handleTimeValueChangeSimplified (timeValue : String) (input : String) :
    String × Option String :=
  if input = "" || matchesDigits input then (input, some input)
  else (timeValue, none)

/-- The input-value state of TimeframeSelector: inputValue (shown in the
text box) and timeValue (used by the search). -/
structure SelectorInputState where
  inputValue : String
  timeValue : String
deriving DecidableEq, Repr

/-- TimeframeSelector.handleTimeValueChange (src timeframe-selector lines
43-49): when the input is empty or matches `/^\d+$/`, store it as both
inputValue and timeValue; otherwise leave the state unchanged. -/
def handleTimeValueChangeTS (st : SelectorInputState) (input : String) :
    SelectorInputState :=
  if input = "" || matchesDigits input then
    { inputValue := input, timeValue := input }
  else st

/-- The invariant maintained on stored time values: empty or a pure digit
string. -/
def goodTimeValue (s : String) : Bool :=
  decide (s = "") || matchesDigits s

/-- The dashboard statistics record (src dashboard EmailStats). -/
structure EmailStats where
  total : Nat
  read : Nat
  unread : Nat
  replied : Nat
  drafted : Nat
deriving DecidableEq, Repr

/-- A recent-email row (src dashboard RecentEmail). -/
structure RecentEmail where
  emailId : String
  subject : String
  sender : String
  timestamp : String
  isRead : Bool
  isStarred : Bool
deriving DecidableEq, Repr

/-- The all-zero statistics the dashboard resets to on a non-abort
fetch failure. -/
def zeroStats : EmailStats := ⟨0, 0, 0, 0, 0⟩

/-- The component state of EmailDashboard touched by fetchData. -/
structure DashboardState where
  stats : EmailStats
  recentEmails : List RecentEmail
  error : Option String
  currentHours : String
  loading : Bool
deriving DecidableEq, Repr

/-- How one fetchData call resolves: both requests succeed with parsed
payloads, or the 5-minute AbortController timeout fires, or some other
error is thrown (a failed response, a network error, a JSON error). -/
inductive FetchOutcome
  | success (stats : EmailStats) (emails : List RecentEmail)
  | abortError
  | otherError (message : String)

/-- The error message set when the AbortController timeout fires
(src dashboard line 128). -/
def timeoutMessage : String :=
  "Request timed out after 5 minutes. Try a smaller time range or try again."

/-- EmailDashboard.fetchData (src dashboard lines 72-144) as a transition
on the component state: no-op without a selected account; on success store
the fetched stats, emails and hours and clear the error; on AbortError set
only the timeout error message; on any other error set the error message
(falling back to a default when empty) and reset stats to zero and the
recent emails to the empty list.  The transient large-range warning set
before the requests is overwritten on every completion path, and the
finally block always clears loading. -/
def fetchData (hasAccount : Bool) (st : DashboardState) (hours : String)
    (outcome : FetchOutcome) : DashboardState :=
  if hasAccount = false then st
  else
    match outcome with
    | FetchOutcome.success stats emails =>
      { st with
          stats := stats
          recentEmails := emails
          currentHours := hours
          error := none
          loading := false }
    | FetchOutcome.abortError =>
      { st with error := some timeoutMessage, loading := false }
    | FetchOutcome.otherError m =>
      { st with
          error := some (if m = "" then "Failed to fetch data" else m)
          stats := zeroStats
          recentEmails := []
          loading := false }

end Frontend

open Workflow Frontend

/-- C1: for every inbound message whose classification resolves to
`unrelated`, runWorkflow terminates in the suppressed terminal state, and
along that run the Draft Synthesizer and the Quality Gate are never
invoked. -/
theorem unrelated_runs_suppressed (svc : Services) (cfg : Config)
    (msg : InboundMessage)
    (h : classify svc.complete msg = Except.ok Category.unrelated) :
    (runWorkflow svc cfg msg).tag = ResultTag.suppressed ∧
    (runWorkflow svc cfg msg).trace.synthCalls = 0 ∧
    (runWorkflow svc cfg msg).trace.gateCalls = 0 := by
  unfold runWorkflow
  rw [h]
  simp

theorem unrelated_runs_suppressed_witness :
    (runWorkflow (stubServices "unrelated" true) defaultConfig sampleMsg).tag =
      ResultTag.suppressed ∧
    (runWorkflow (stubServices "unrelated" true) defaultConfig sampleMsg).trace.synthCalls = 0 ∧
    (runWorkflow (stubServices "unrelated" true) defaultConfig sampleMsg).trace.gateCalls = 0 :=
  unrelated_runs_suppressed (stubServices "unrelated" true) defaultConfig sampleMsg rfl

/-- C5: runWorkflow is a deterministic function of the message and the
(deterministic) external services: two independent runs on the same inputs
produce the same terminal state tag and the same category. -/
theorem runWorkflow_deterministic (svc : Services) (cfg : Config)
    (msg : InboundMessage) (r1 r2 : WorkflowResult)
    (h1 : r1 = runWorkflow svc cfg msg)
    (h2 : r2 = runWorkflow svc cfg msg) :
    r1.tag = r2.tag ∧ r1.trace.category = r2.trace.category := by
  subst h1
  subst h2
  exact ⟨rfl, rfl⟩

theorem runWorkflow_deterministic_witness :
    (runWorkflow (stubServices "feedback" true) defaultConfig sampleMsg).tag =
      (runWorkflow (stubServices "feedback" true) defaultConfig sampleMsg).tag ∧
    (runWorkflow (stubServices "feedback" true) defaultConfig sampleMsg).trace.category =
      (runWorkflow (stubServices "feedback" true) defaultConfig sampleMsg).trace.category :=
  runWorkflow_deterministic (stubServices "feedback" true) defaultConfig sampleMsg
    (runWorkflow (stubServices "feedback" true) defaultConfig sampleMsg)
    (runWorkflow (stubServices "feedback" true) defaultConfig sampleMsg) rfl rfl

/-- C4: classify always resolves to a member of the closed taxonomy; when
the completion model's normalized answer is outside the taxonomy, classify
fails with a ClassificationError instead of propagating an invalid label,
and any label it does return is exactly the parsed taxonomy member. -/
theorem classify_closed_taxonomy (complete : String → Except String String)
    (msg : InboundMessage) :
    (∀ c : Category, classify complete msg = Except.ok c →
      c ∈ [Category.complaint, Category.product_inquiry, Category.feedback,
           Category.fleet_related, Category.unrelated]) ∧
    (∀ txt, complete (classifyPrompt msg) = Except.ok txt →
      parseCategory (normalizeLabel txt) = none →
      classify complete msg = Except.error "ClassificationError") ∧
    (∀ txt c, complete (classifyPrompt msg) = Except.ok txt →
      classify complete msg = Except.ok c →
      parseCategory (normalizeLabel txt) = some c) := by
  refine ⟨?_, ?_, ?_⟩
  · intro c _
    cases c <;> simp
  · intro txt h hnone
    unfold classify
    rw [h]
    simp [hnone]
  · intro txt c h hok
    unfold classify at hok
    rw [h] at hok
    cases hp : parseCategory (normalizeLabel txt) with
    | none => simp [hp] at hok
    | some c2 =>
      simp only [hp, Except.ok.injEq] at hok
      rw [hok]

/-- C6: retrieve returns a finite sequence ordered by descending relevance
score, every returned passage scores at least the configured minimum, and
an empty knowledge base yields the empty sequence rather than a failure. -/
theorem retrieve_ordered_filtered (search : String → List RetrievedPassage)
    (minScore : Rat) (query : String) (topK : Nat) :
    List.Sorted scoreGE (retrieve search minScore query topK) ∧
    (∀ p ∈ retrieve search minScore query topK, minScore ≤ p.score) ∧
    (search query = [] → retrieve search minScore query topK = []) := by
  refine ⟨?_, ?_, ?_⟩
  · exact List.Pairwise.sublist (List.take_sublist _ _)
      (List.sorted_insertionSort scoreGE _)
  · intro p hp
    have h1 : p ∈ List.insertionSort scoreGE
        ((search query).filter (fun p => decide (minScore ≤ p.score))) :=
      List.take_subset _ _ hp
    have h2 : p ∈ (search query).filter (fun p => decide (minScore ≤ p.score)) :=
      (List.mem_insertionSort scoreGE).mp h1
    have h3 := (List.mem_filter.mp h2).2
    exact of_decide_eq_true h3
  · intro h
    unfold retrieve
    rw [h]
    simp [List.insertionSort]

/-- C7: per-entity tolerance of the telemetry resolver: every entity whose
lookup succeeds contributes its TelemetryFact to the resolved set, every
entity whose lookup fails is flagged in the unresolved set, and the
grounding stage of the workflow packages both into a grounding context
(it never fails the workflow). -/
theorem resolve_partial_tolerance
    (lookup : Entity → Option (List (String × String))) (es : List Entity) :
    (∀ e ∈ es, ∀ attrs, lookup e = some attrs →
      (⟨e.etype, e.eid, attrs⟩ : TelemetryFact) ∈ (resolveEntities lookup es).1) ∧
    (∀ e ∈ es, lookup e = none → e ∈ (resolveEntities lookup es).2) ∧
    (∀ svc : Services, ∀ cfg msg, svc.lookup = lookup → svc.extract msg = es →
      ground svc cfg msg Category.fleet_related =
        GroundingContext.telemetry (resolveEntities lookup es).1
          (resolveEntities lookup es).2) := by
  refine ⟨?_, ?_, ?_⟩
  · induction es with
    | nil => intro e he; cases he
    | cons a as ih =>
      intro e he attrs hl
      rcases List.mem_cons.mp he with heq | hmem
      · subst heq
        simp [resolveEntities, hl]
      · cases hla : lookup a with
        | some at2 =>
          simp only [resolveEntities, hla]
          exact List.mem_cons_of_mem _ (ih e hmem attrs hl)
        | none =>
          simp only [resolveEntities, hla]
          exact ih e hmem attrs hl
  · induction es with
    | nil => intro e he; cases he
    | cons a as ih =>
      intro e he hl
      rcases List.mem_cons.mp he with heq | hmem
      · subst heq
        simp [resolveEntities, hl]
      · cases hla : lookup a with
        | some at2 =>
          simp only [resolveEntities, hla]
          exact ih e hmem hl
        | none =>
          simp only [resolveEntities, hla]
          exact List.mem_cons_of_mem _ (ih e hmem hl)
  · intro svc cfg msg h1 h2
    unfold ground resolve
    rw [h1, h2]

/-- Helper: a drafted outcome of the revision loop carries an accepting
verdict as the last element of its verdict trace. -/
theorem draftLoop_drafted_accept (svc : Services) (msg : InboundMessage)
    (cat : Category) (ctx : GroundingContext) :
    ∀ (fuel rev : Nat) (fb : List String) (vs : List QAVerdict)
      (ats : List (DraftCandidate × Rat)) (sc gc : Nat),
      (draftLoop svc msg cat ctx fuel rev fb vs ats sc gc).tag = ResultTag.drafted →
      ∃ v : QAVerdict,
        (draftLoop svc msg cat ctx fuel rev fb vs ats sc gc).verdicts.getLast? = some v ∧
        v.accept = true := by
  intro fuel
  induction fuel with
  | zero =>
    intro rev fb vs ats sc gc h
    rw [draftLoop] at h ⊢
    cases hsy : svc.synthesize msg cat ctx fb with
    | error e =>
      rw [hsy] at h
      simp only [] at h
      exact absurd h (by decide)
    | ok body =>
      rw [hsy] at h
      simp only [] at h ⊢
      cases hev : svc.evaluate ⟨body, cat, ctx, rev, fb⟩ with
      | error e =>
        rw [hev] at h
        simp only [] at h
        exact absurd h (by decide)
      | ok v =>
        rw [hev] at h
        simp only [] at h ⊢
        by_cases hacc : v.accept = true
        · rw [if_pos hacc] at h ⊢
          exact ⟨v, by simp [List.getLast?_concat], hacc⟩
        · rw [if_neg hacc] at h
          simp only [] at h
          exact absurd h (by decide)
  | succ n ih =>
    intro rev fb vs ats sc gc h
    rw [draftLoop] at h ⊢
    cases hsy : svc.synthesize msg cat ctx fb with
    | error e =>
      rw [hsy] at h
      simp only [] at h
      exact absurd h (by decide)
    | ok body =>
      rw [hsy] at h
      simp only [] at h ⊢
      cases hev : svc.evaluate ⟨body, cat, ctx, rev, fb⟩ with
      | error e =>
        rw [hev] at h
        simp only [] at h
        exact absurd h (by decide)
      | ok v =>
        rw [hev] at h
        simp only [] at h ⊢
        by_cases hacc : v.accept = true
        · rw [if_pos hacc] at h ⊢
          exact ⟨v, by simp [List.getLast?_concat], hacc⟩
        · rw [if_neg hacc] at h ⊢
          exact ih (rev + 1) v.issues (vs ++ [v]) (ats ++ [(⟨body, cat, ctx, rev, fb⟩, v.score)])
            (sc + 1) (gc + 1) h

/-- C2: a run of runWorkflow terminates as drafted only if the most recent
QAVerdict produced by the Quality Gate in that run has accept=true. -/
theorem drafted_needs_accepted_verdict (svc : Services) (cfg : Config)
    (msg : InboundMessage)
    (h : (runWorkflow svc cfg msg).tag = ResultTag.drafted) :
    ∃ v : QAVerdict,
      (runWorkflow svc cfg msg).verdicts.getLast? = some v ∧ v.accept = true := by
  unfold runWorkflow at h ⊢
  cases hc : classify svc.complete msg with
  | error e =>
    rw [hc] at h
    simp only [] at h
    exact absurd h (by decide)
  | ok cat =>
    rw [hc] at h
    simp only [] at h ⊢
    by_cases hu : cat = Category.unrelated
    · rw [if_pos hu] at h
      simp only [] at h
      exact absurd h (by decide)
    · rw [if_neg hu] at h ⊢
      exact draftLoop_drafted_accept svc msg cat (ground svc cfg msg cat)
        cfg.maxRetries 0 [] [] [] 0 0 h

/-- Helper: bestOf returns none only on the empty attempt list. -/
theorem bestOf_eq_none (l : List (DraftCandidate × Rat)) (h : bestOf l = none) :
    l = [] := by
  cases l with
  | nil => rfl
  | cons a t =>
    exfalso
    rw [bestOf] at h
    cases hb : bestOf t with
    | none =>
      rw [hb] at h
      simp only [] at h
      exact Option.noConfusion h
    | some b =>
      rw [hb] at h
      simp only [] at h
      by_cases hle : b.2 ≤ a.2
      · rw [if_pos hle] at h
        exact Option.noConfusion h
      · rw [if_neg hle] at h
        exact Option.noConfusion h

/-- Helper: a best attempt returned by bestOf is among the attempts and its
score bounds every attempt's score. -/
theorem bestOf_spec (l : List (DraftCandidate × Rat)) :
    ∀ b, bestOf l = some b → b ∈ l ∧ ∀ a ∈ l, a.2 ≤ b.2 := by
  induction l with
  | nil => intro b h; exact Option.noConfusion h
  | cons a t ih =>
    intro b h
    rw [bestOf] at h
    cases hb : bestOf t with
    | none =>
      rw [hb] at h
      simp only [] at h
      injection h with hab
      subst hab
      have ht : t = [] := bestOf_eq_none t hb
      subst ht
      refine ⟨List.mem_cons_self a [], ?_⟩
      intro x hx
      rcases List.mem_cons.mp hx with rfl | hx2
      · exact le_refl _
      · cases hx2
    | some c =>
      rw [hb] at h
      simp only [] at h
      by_cases hle : c.2 ≤ a.2
      · rw [if_pos hle] at h
        injection h with hab
        subst hab
        refine ⟨List.mem_cons_self a t, ?_⟩
        intro x hx
        rcases List.mem_cons.mp hx with rfl | hx2
        · exact le_refl _
        · exact le_trans ((ih c hb).2 x hx2) hle
      · rw [if_neg hle] at h
        injection h with hcb
        subst hcb
        refine ⟨List.mem_cons_of_mem a (ih c hb).1, ?_⟩
        intro x hx
        rcases List.mem_cons.mp hx with rfl | hx2
        · exact le_of_not_le hle
        · exact (ih c hb).2 x hx2

/-- Helper: the revision counter of the loop's outcome is bounded by the
entry counter plus the remaining fuel. -/
theorem draftLoop_rev_le (svc : Services) (msg : InboundMessage) (cat : Category)
    (ctx : GroundingContext) :
    ∀ (fuel rev : Nat) (fb : List String) (vs : List QAVerdict)
      (ats : List (DraftCandidate × Rat)) (sc gc : Nat),
      (draftLoop svc msg cat ctx fuel rev fb vs ats sc gc).trace.revisionCount ≤
        rev + fuel := by
  intro fuel
  induction fuel with
  | zero =>
    intro rev fb vs ats sc gc
    rw [draftLoop]
    cases hsy : svc.synthesize msg cat ctx fb with
    | error e =>
      simp only []
      omega
    | ok body =>
      simp only []
      cases hev : svc.evaluate ⟨body, cat, ctx, rev, fb⟩ with
      | error e =>
        simp only []
        omega
      | ok v =>
        simp only []
        by_cases hacc : v.accept = true
        · rw [if_pos hacc]
          simp only []
          omega
        · rw [if_neg hacc]
          simp only []
          omega
  | succ n ih =>
    intro rev fb vs ats sc gc
    rw [draftLoop]
    cases hsy : svc.synthesize msg cat ctx fb with
    | error e =>
      simp only []
      omega
    | ok body =>
      simp only []
      cases hev : svc.evaluate ⟨body, cat, ctx, rev, fb⟩ with
      | error e =>
        simp only []
        omega
      | ok v =>
        simp only []
        by_cases hacc : v.accept = true
        · rw [if_pos hacc]
          simp only []
          omega
        · rw [if_neg hacc]
          exact le_trans
            (ih (rev + 1) v.issues (vs ++ [v])
              (ats ++ [(⟨body, cat, ctx, rev, fb⟩, v.score)]) (sc + 1) (gc + 1))
            (by omega)

/-- Helper: with a gate that always rejects and total synthesis and gate
calls, the revision loop escalates, consumes its full fuel and retains
the best-scoring attempt. -/
theorem draftLoop_allreject (svc : Services) (msg : InboundMessage) (cat : Category)
    (ctx : GroundingContext)
    (hs : ∀ fb, ∃ b, svc.synthesize msg cat ctx fb = Except.ok b)
    (he : ∀ d, ∃ v, svc.evaluate d = Except.ok v ∧ v.accept = false) :
    ∀ (fuel rev : Nat) (fb : List String) (vs : List QAVerdict)
      (ats : List (DraftCandidate × Rat)) (sc gc : Nat),
      (draftLoop svc msg cat ctx fuel rev fb vs ats sc gc).tag = ResultTag.escalated ∧
      (draftLoop svc msg cat ctx fuel rev fb vs ats sc gc).trace.revisionCount = rev + fuel ∧
      (draftLoop svc msg cat ctx fuel rev fb vs ats sc gc).finalDraft =
        (bestOf (draftLoop svc msg cat ctx fuel rev fb vs ats sc gc).attempts).map Prod.fst ∧
      (draftLoop svc msg cat ctx fuel rev fb vs ats sc gc).attempts ≠ [] := by
  intro fuel
  induction fuel with
  | zero =>
    intro rev fb vs ats sc gc
    obtain ⟨body, hsy⟩ := hs fb
    obtain ⟨v, hev, hvacc⟩ := he ⟨body, cat, ctx, rev, fb⟩
    rw [draftLoop, hsy]
    simp only []
    rw [hev]
    simp only []
    rw [if_neg (by simp [hvacc])]
    refine ⟨rfl, by simp only []; omega, rfl, by simp⟩
  | succ n ih =>
    intro rev fb vs ats sc gc
    obtain ⟨body, hsy⟩ := hs fb
    obtain ⟨v, hev, hvacc⟩ := he ⟨body, cat, ctx, rev, fb⟩
    rw [draftLoop, hsy]
    simp only []
    rw [hev]
    simp only []
    rw [if_neg (by simp [hvacc])]
    obtain ⟨h1, h2, h3, h4⟩ := ih (rev + 1) v.issues (vs ++ [v])
      (ats ++ [(⟨body, cat, ctx, rev, fb⟩, v.score)]) (sc + 1) (gc + 1)
    exact ⟨h1, by rw [h2]; omega, h3, h4⟩

/-- C3: the revision counter of every run's final trace is at most the
configured maximum retry count; and a run whose gate keeps rejecting
(with classification resolved to a category other than unrelated and with
synthesis and gate calls succeeding) terminates as escalated -- so neither
drafted nor failed -- with the counter at the maximum and the best-scoring
candidate among the attempts retained as the final draft. -/
theorem revision_bounded_and_escalates (svc : Services) (cfg : Config)
    (msg : InboundMessage) (cat : Category)
    (hc : classify svc.complete msg = Except.ok cat)
    (hu : cat ≠ Category.unrelated)
    (hs : ∀ c ctx fb, ∃ b, svc.synthesize msg c ctx fb = Except.ok b)
    (he : ∀ d, ∃ v, svc.evaluate d = Except.ok v ∧ v.accept = false) :
    (∀ (svc2 : Services) (cfg2 : Config) (msg2 : InboundMessage),
      (runWorkflow svc2 cfg2 msg2).trace.revisionCount ≤ cfg2.maxRetries) ∧
    (runWorkflow svc cfg msg).tag = ResultTag.escalated ∧
    (runWorkflow svc cfg msg).trace.revisionCount = cfg.maxRetries ∧
    (∃ b ∈ (runWorkflow svc cfg msg).attempts,
      (runWorkflow svc cfg msg).finalDraft = some b.1 ∧
      ∀ a ∈ (runWorkflow svc cfg msg).attempts, a.2 ≤ b.2) := by
  have hbound : ∀ (svc2 : Services) (cfg2 : Config) (msg2 : InboundMessage),
      (runWorkflow svc2 cfg2 msg2).trace.revisionCount ≤ cfg2.maxRetries := by
    intro svc2 cfg2 msg2
    unfold runWorkflow
    cases hc2 : classify svc2.complete msg2 with
    | error e =>
      simp only []
      omega
    | ok cat2 =>
      simp only []
      by_cases hu2 : cat2 = Category.unrelated
      · rw [if_pos hu2]
        simp only []
        omega
      · rw [if_neg hu2]
        exact le_trans
          (draftLoop_rev_le svc2 msg2 cat2 (ground svc2 cfg2 msg2 cat2)
            cfg2.maxRetries 0 [] [] [] 0 0)
          (by omega)
  have hrun : runWorkflow svc cfg msg =
      draftLoop svc msg cat (ground svc cfg msg cat) cfg.maxRetries 0 [] [] [] 0 0 := by
    unfold runWorkflow
    rw [hc]
    simp only []
    rw [if_neg hu]
  obtain ⟨h1, h2, h3, h4⟩ := draftLoop_allreject svc msg cat (ground svc cfg msg cat)
    (fun fb => hs cat (ground svc cfg msg cat) fb) he cfg.maxRetries 0 [] [] [] 0 0
  refine ⟨hbound, ?_, ?_, ?_⟩
  · rw [hrun]
    exact h1
  · rw [hrun, h2]
    omega
  · rw [hrun]
    cases hb : bestOf (draftLoop svc msg cat (ground svc cfg msg cat)
        cfg.maxRetries 0 [] [] [] 0 0).attempts with
    | none => exact absurd (bestOf_eq_none _ hb) h4
    | some b =>
      obtain ⟨hmem, hbd⟩ := bestOf_spec _ b hb
      exact ⟨b, hmem, by rw [h3, hb]; rfl, hbd⟩

theorem revision_bounded_and_escalates_witness :
    (runWorkflow (stubServices "complaint" false) defaultConfig sampleMsg).tag =
      ResultTag.escalated ∧
    (runWorkflow (stubServices "complaint" false) defaultConfig sampleMsg).trace.revisionCount =
      defaultConfig.maxRetries := by
  have h := revision_bounded_and_escalates (stubServices "complaint" false) defaultConfig
    sampleMsg Category.complaint rfl (by decide)
    (fun c ctx fb => ⟨"Dear customer, thank you.", rfl⟩)
    (fun d => ⟨⟨false, ["tone too informal"], 1⟩, rfl, rfl⟩)
  exact ⟨h.2.1, h.2.2.1⟩

theorem drafted_needs_accepted_verdict_witness :
    ∃ v : QAVerdict,
      (runWorkflow (stubServices "complaint" true) defaultConfig sampleMsg).verdicts.getLast? =
        some v ∧ v.accept = true :=
  drafted_needs_accepted_verdict (stubServices "complaint" true) defaultConfig sampleMsg rfl

/-- C8: calculateHours returns the parsed value times 24 for days and the
parsed value for hours, and 0 when the string does not parse as an
integer; handleSearch and handleUnitChange invoke the onTimeframeChange
callback only when the computed hours are strictly positive, so the empty
input never triggers a fetch. -/
theorem calculateHours_guards :
    (∀ (v : String) (u : TimeUnit) (n : Int), jsParseInt v = some n →
      calculateHours v u = if u = TimeUnit.days then n * 24 else n) ∧
    (∀ (v : String) (u : TimeUnit), jsParseInt v = none → calculateHours v u = 0) ∧
    (∀ (tv : String) (tu : TimeUnit) (ld : Bool) (s : String),
      handleSearch tv tu ld = some s → 0 < calculateHours tv tu) ∧
    (∀ (tv : String) (u : TimeUnit) (ld : Bool) (s : String),
      (handleUnitChange tv u ld).2 = some s → 0 < calculateHours tv u) ∧
    (∀ (u : TimeUnit) (ld : Bool),
      handleSearch "" u ld = none ∧ (handleUnitChange "" u ld).2 = none) := by
  refine ⟨?_, ?_, ?_, ?_, ?_⟩
  · intro v u n h
    simp [calculateHours, h]
  · intro v u h
    simp [calculateHours, h]
  · intro tv tu ld s h
    unfold handleSearch at h
    by_cases hc : 0 < calculateHours tv tu ∧ ld = false
    · exact hc.1
    · rw [if_neg hc] at h
      exact Option.noConfusion h
  · intro tv u ld s h
    unfold handleUnitChange at h
    simp only [] at h
    by_cases hc : 0 < calculateHours tv u ∧ ld = false
    · exact hc.1
    · rw [if_neg hc] at h
      exact Option.noConfusion h
  · intro u ld
    cases u <;> cases ld <;> exact ⟨rfl, rfl⟩

/-- C9: fetchData on a failure other than AbortError resets the stats to
all-zero counts and the recent e-mails to the empty list while recording
the error message; on the AbortError timeout it records only the timeout
message and leaves the previously displayed stats, recent e-mails and
hours unchanged. -/
theorem fetchData_failure_modes (st : DashboardState) (hours : String) :
    (∀ m, (fetchData true st hours (FetchOutcome.otherError m)).stats = zeroStats ∧
      (fetchData true st hours (FetchOutcome.otherError m)).recentEmails = [] ∧
      (fetchData true st hours (FetchOutcome.otherError m)).error =
        some (if m = "" then "Failed to fetch data" else m)) ∧
    ((fetchData true st hours FetchOutcome.abortError).stats = st.stats ∧
     (fetchData true st hours FetchOutcome.abortError).recentEmails = st.recentEmails ∧
     (fetchData true st hours FetchOutcome.abortError).currentHours = st.currentHours ∧
     (fetchData true st hours FetchOutcome.abortError).error = some timeoutMessage) :=
  ⟨fun m => ⟨rfl, rfl, rfl⟩, rfl, rfl, rfl, rfl⟩

/-- C10: in both selector components, handleTimeValueChange accepts an
input only when it is empty or matches the digits-only pattern, so across
every sequence of input events the stored time value stays empty or a pure
digit string. -/
theorem timeValue_digit_invariant (events : List String) (v0 : String)
    (st0 : SelectorInputState)
    (h1 : goodTimeValue v0 = true)
    (h2 : goodTimeValue st0.timeValue = true) :
    goodTimeValue
      (events.foldl (fun v e => (handleTimeValueChangeSimplified v e).1) v0) = true ∧
    goodTimeValue ((events.foldl handleTimeValueChangeTS st0).timeValue) = true := by
  induction events generalizing v0 st0 with
  | nil => exact ⟨h1, h2⟩
  | cons e es ih =>
    simp only [List.foldl_cons]
    apply ih
    · unfold handleTimeValueChangeSimplified
      by_cases hg : (decide (e = "") || matchesDigits e) = true
      · rw [if_pos hg]
        exact hg
      · rw [if_neg hg]
        exact h1
    · unfold handleTimeValueChangeTS
      by_cases hg : (decide (e = "") || matchesDigits e) = true
      · rw [if_pos hg]
        exact hg
      · rw [if_neg hg]
        exact h2

theorem timeValue_digit_invariant_witness :
    goodTimeValue
      (["12", "3a4", ""].foldl
        (fun v e => (handleTimeValueChangeSimplified v e).1) "24") = true ∧
    goodTimeValue
      ((["12", "3a4", ""].foldl handleTimeValueChangeTS ⟨"24", "24"⟩).timeValue) = true :=
  timeValue_digit_invariant ["12", "3a4", ""] "24" ⟨"24", "24"⟩ rfl rfl
